import Mathlib

/-!
Shallow embedding of the reverse-tunnel file-download system
(`server.py` / `client.py`): the message codec (JSON text payloads via
latin1), the client's file-streaming loop (`FileDownloadClient.send_file`),
and the server's WebSocket message handlers and download tracker
(`FileDownloadServer.handle_file_chunk`, `handle_file_complete`,
`handle_client_error`, `trigger_download`, and the disconnect cleanup of
`websocket_handler`).

Bytes are `Fin 256`.  Python dicts are association lists with last-write
replacement in place (`insertA`) and deletion (`eraseA`).  The filesystem
seen by the server is a map from path to the byte contents appended so far
(`open(path, 'ab')` creates absent files, modelled by `getD []`).
Handlers that can raise a Python exception return `Except String`.
-/

abbrev Byte := Fin 256

/-- Lookup in an association list, mirroring Python `d[k]` / `k in d`. -/
def lookupA {α : Type} : List (String × α) → String → Option α
  | [], _ => none
  | p :: rest, k => if p.1 = k then some p.2 else lookupA rest k

/-- Insert or replace in place, mirroring Python `d[k] = v`. -/
def insertA {α : Type} (k : String) (v : α) : List (String × α) → List (String × α)
  | [] => [(k, v)]
  | p :: rest => if p.1 = k then (k, v) :: rest else p :: insertA k v rest

/-- Remove every binding of `k`, mirroring Python `del d[k]`. -/
def eraseA {α : Type} : List (String × α) → String → List (String × α)
  | [], _ => []
  | p :: rest, k => if p.1 = k then eraseA rest k else p :: eraseA rest k

/-- Python `bytes.decode('latin1')`: each byte becomes the code point of the
same value.  The JSON `data` field is modelled as the list of code points. -/
def latin1Decode (bs : List Byte) : List Nat :=
  bs.map (·.val)

/-- Python `str.encode('latin1')`: succeeds iff every code point is < 256,
otherwise a `UnicodeEncodeError` is raised (modelled as `none`). -/
def latin1EncodeBytes : List Nat → Option (List Byte)
  | [] => some []
  | c :: rest =>
    if h : c < 256 then
      match latin1EncodeBytes rest with
      | none => none
      | some bs => some (⟨c, h⟩ :: bs)
    else none

/-- Splitting of a byte sequence by the client's `f.read(chunk_size)` loop:
successive blocks of `k` bytes, the last possibly shorter.  `fuel` bounds
the recursion; `bs.length` fuel is enough whenever `1 ≤ k`. -/
def chunksOfAux {α : Type} (k : Nat) : Nat → List α → List (List α)
  | 0, _ => []
  | _ + 1, [] => []
  | fuel + 1, b :: rest => (b :: rest).take k :: chunksOfAux k fuel ((b :: rest).drop k)

/-- Blocks of `k` bytes in file order, the last possibly shorter. -/
def chunksOf {α : Type} (k : Nat) (bs : List α) : List (List α) :=
  chunksOfAux k bs.length bs

/-- Client computation `total_chunks = (file_size + self.chunk_size - 1) // self.chunk_size`
(client.py line 120). -/
def totalChunks (file_size chunk_size : Nat) : Nat :=
  (file_size + chunk_size - 1) / chunk_size

/-- Wire messages sent from client to server over the tunnel. -/
inductive ClientMsg : Type
  | register (client_id : String)
  | fileChunk (download_id : String) (chunk_num : Nat) (total_chunks : Nat) (data : List Nat)
  | fileComplete (download_id : String) (total_size : Nat) (total_chunks : Nat)
  | clientError (download_id : String) (message : String)
deriving DecidableEq, Repr

/-- Chunk-sending loop of `FileDownloadClient.send_file` (client.py lines
125-153): a 1-based `chunk_num` counter is incremented before each send,
and each chunk is sent latin1-decoded in the `data` field. -/
def sendChunksLoop (did : String) (tc : Nat) (chunk_num : Nat) :
    List (List Byte) → List ClientMsg
  | [] => []
  | c :: rest =>
      ClientMsg.fileChunk did (chunk_num + 1) tc (latin1Decode c)
        :: sendChunksLoop did tc (chunk_num + 1) rest

/-- The `file_chunk` messages `send_file` emits for file contents `bs`. -/
def sendFileChunks (did : String) (k : Nat) (bs : List Byte) : List ClientMsg :=
  sendChunksLoop did (totalChunks bs.length k) 0 (chunksOf k bs)

/-- Everything `send_file` emits: the chunks, then `file_complete` carrying
`total_size = file_size` and `total_chunks = chunk_num` (the count of
chunks actually sent, client.py lines 158-163). -/
def sendFileMsgs (did : String) (k : Nat) (bs : List Byte) : List ClientMsg :=
  sendFileChunks did k bs
    ++ [ClientMsg.fileComplete did bs.length (chunksOf k bs).length]

/-- Download status values of `server.py`. -/
inductive Status : Type
  | downloading
  | completed
  | failed
deriving DecidableEq, Repr

/-- Server-side record in `self.downloads` (server.py lines 178-186). -/
structure DownloadRecord : Type where
  download_id : String
  client_id : String
  file_path : String
  remote_path : String
  status : Status
  started_at : String
  chunks_received : Nat
  completed_at : Option String := none
  total_size : Option Nat := none
  error : Option String := none
deriving DecidableEq, Repr

/-- Mutable server state: the session registry `self.connected_clients`
(tunnel handles as `Nat` ids), the download tracker `self.downloads`, and
the destination filesystem (path to bytes appended so far). -/
structure ServerState : Type where
  download_dir : String
  connected_clients : List (String × Nat)
  downloads : List (String × DownloadRecord)
  files : List (String × List Byte)
deriving DecidableEq, Repr

/-- Python `open(path, 'ab'); f.write(bts)`: creates the file if absent and
appends the bytes. -/
def appendFileA (fs : List (String × List Byte)) (p : String) (bts : List Byte) :
    List (String × List Byte) :=
  insertA p ((lookupA fs p).getD [] ++ bts) fs

/-- Handler `FileDownloadServer.handle_file_chunk` (server.py lines
107-125): unknown `download_id` is a logged no-op; otherwise the payload is
re-encoded as latin1 (raising on a code point ≥ 256), appended to the
record's destination file, and `chunks_received` is assigned `chunk_num`. -/
def handle_file_chunk (did : String) (chunk_num : Nat) (dat : List Nat)
    (s : ServerState) : Except String ServerState :=
  match lookupA s.downloads did with
  | none => Except.ok s
  | some r =>
    match latin1EncodeBytes dat with
    | none => Except.error "UnicodeEncodeError"
    | some bts =>
        let r' := { r with chunks_received := chunk_num }
        Except.ok { s with
          files := appendFileA s.files r.file_path bts,
          downloads := insertA did r' s.downloads }

/-- Handler `FileDownloadServer.handle_file_complete` (server.py lines
127-140): for a known `download_id` it assigns `status := completed`,
`completed_at := now` and `total_size` from the message, with no check of
the record's current status. -/
def handle_file_complete (now : String) (did : String) (total_size : Option Nat)
    (s : ServerState) : ServerState :=
  match lookupA s.downloads did with
  | none => s
  | some r =>
      let r' := { r with status := Status.completed, completed_at := some now,
                         total_size := total_size }
      { s with downloads := insertA did r' s.downloads }

/-- Handler `FileDownloadServer.handle_client_error` (server.py lines
142-150): for a known `download_id` it assigns `status := failed` and the
error message, with no check of the record's current status. -/
def handle_client_error (did : String) (msg : Option String)
    (s : ServerState) : ServerState :=
  match lookupA s.downloads did with
  | none => s
  | some r =>
      let r' := { r with status := Status.failed, error := msg }
      { s with downloads := insertA did r' s.downloads }

/-- Dispatch of one inbound TEXT message in `websocket_handler`
(server.py lines 74-95).  `ws` is the handle of the tunnel the message
arrived on. -/
def processMsg (now : String) (ws : Nat) (m : ClientMsg) (s : ServerState) :
    Except String ServerState :=
  match m with
  | ClientMsg.register cid =>
      Except.ok { s with connected_clients := insertA cid ws s.connected_clients }
  | ClientMsg.fileChunk did n _tc dat => handle_file_chunk did n dat s
  | ClientMsg.fileComplete did ts _tc =>
      Except.ok (handle_file_complete now did (some ts) s)
  | ClientMsg.clientError did msg =>
      Except.ok (handle_client_error did (some msg) s)

/-- Sequential processing of inbound messages in arrival order. -/
def processMsgs (now : String) (ws : Nat) :
    List ClientMsg → ServerState → Except String ServerState
  | [], s => Except.ok s
  | m :: rest, s =>
      match processMsg now ws m s with
      | Except.error e => Except.error e
      | Except.ok s' => processMsgs now ws rest s'

/-- Cleanup in the `finally` block of `websocket_handler` (server.py lines
100-103): if the local `client_id` is set (non-empty) and present in the
registry, its entry is deleted.  `ws`, the tunnel being closed, is in scope
but the code never compares it with the registry's current mapping. -/
def disconnectCleanup (ws : Nat) (client_id : Option String) (s : ServerState) :
    ServerState :=
  match client_id with
  | none => s
  | some cid =>
      if cid ≠ "" ∧ (lookupA s.connected_clients cid).isSome then
        { s with connected_clients := eraseA s.connected_clients cid }
      else s

/-- Server-chosen destination file name
`f"{client_id}_{utcnow}_file_to_download.txt"` (server.py line 175);
it is built from the client id and the UTC timestamp only. -/
def localFilename (client_id timestamp : String) : String :=
  client_id ++ "_" ++ timestamp ++ "_file_to_download.txt"

/-- Destination path `self.download_dir / local_filename` (server.py line 176). -/
def localPath (download_dir client_id timestamp : String) : String :=
  download_dir ++ "/" ++ localFilename client_id timestamp

/-- Outcome of the dispatch endpoint `trigger_download`. -/
inductive DispatchResult : Type
  | missingField
  | clientNotConnected (client_id : String)
  | dispatched (download_id : String)
deriving DecidableEq, Repr

/-- Endpoint `FileDownloadServer.trigger_download` (server.py lines
152-203): a falsy `client_id` is a 400 error; an id absent from
`connected_clients` is a 404 `ClientNotConnected`; otherwise a fresh
`DownloadRecord` in status `downloading` is inserted under the generated
`download_id` and the request is sent down the client's tunnel.  `now` is
the formatted UTC timestamp, `new_id` the generated UUID. -/
def trigger_download (client_id : Option String) (file_path : String)
    (now : String) (new_id : String) (s : ServerState) :
    DispatchResult × ServerState :=
  match client_id with
  | none => (DispatchResult.missingField, s)
  | some cid =>
      if cid = "" then (DispatchResult.missingField, s)
      else if (lookupA s.connected_clients cid).isSome then
        let r : DownloadRecord :=
          { download_id := new_id, client_id := cid,
            file_path := localPath s.download_dir cid now,
            remote_path := file_path, status := Status.downloading,
            started_at := now, chunks_received := 0 }
        (DispatchResult.dispatched new_id,
          { s with downloads := insertA new_id r s.downloads })
      else (DispatchResult.clientNotConnected cid, s)

/-- Length of the `data` payload of a `file_chunk` message, zero otherwise. -/
def chunkPayloadLen : ClientMsg → Nat
  | ClientMsg.fileChunk _ _ _ d => d.length
  | _ => 0

/-- Fixed base record used by concrete examples in witnesses. -/
def baseRec : DownloadRecord :=
  { download_id := "d1", client_id := "c1", file_path := "f1",
    remote_path := "r1", status := Status.downloading, started_at := "t0",
    chunks_received := 0 }

/-- Concrete server states for witnesses, download directory fixed. -/
def mkState (cc : List (String × Nat)) (dl : List (String × DownloadRecord))
    (fs : List (String × List Byte)) : ServerState :=
  { download_dir := "downloads", connected_clients := cc, downloads := dl,
    files := fs }

theorem lookupA_insertA_self {α : Type} (k : String) (v : α) :
    ∀ m : List (String × α), lookupA (insertA k v m) k = some v := by
  intro m
  induction m with
  | nil => simp [insertA, lookupA]
  | cons p rest ih =>
    by_cases h : p.1 = k
    · simp [insertA, h, lookupA]
    · simp [insertA, h, lookupA, ih]

theorem lookupA_eraseA_self {α : Type} (k : String) :
    ∀ m : List (String × α), lookupA (eraseA m k) k = none := by
  intro m
  induction m with
  | nil => simp [eraseA, lookupA]
  | cons p rest ih =>
    by_cases h : p.1 = k
    · simp [eraseA, h, ih]
    · simp [eraseA, h, lookupA, ih]

theorem latin1_roundtrip : ∀ bs : List Byte,
    latin1EncodeBytes (latin1Decode bs) = some bs := by
  intro bs
  induction bs with
  | nil => rfl
  | cons b rest ih =>
    simp only [latin1Decode, List.map_cons] at *
    simp only [latin1EncodeBytes, ih, b.isLt, dif_pos]

theorem latin1Decode_length (bs : List Byte) :
    (latin1Decode bs).length = bs.length := by
  simp [latin1Decode]

theorem chunksOfAux_join {α : Type} (k : Nat) (hk : 1 ≤ k) :
    ∀ (fuel : Nat) (bs : List α), bs.length ≤ fuel →
      (chunksOfAux k fuel bs).flatten = bs := by
  intro fuel
  induction fuel with
  | zero =>
    intro bs hbs
    have hnil : bs = [] := List.eq_nil_of_length_eq_zero (Nat.le_zero.mp hbs)
    subst hnil
    rfl
  | succ n ih =>
    intro bs hbs
    cases bs with
    | nil => rfl
    | cons b rest =>
      have hlen : ((b :: rest).drop k).length ≤ n := by
        simp only [List.length_drop, List.length_cons]
        simp only [List.length_cons] at hbs
        omega
      simp only [chunksOfAux, List.flatten_cons]
      rw [ih _ hlen]
      exact List.take_append_drop k (b :: rest)

theorem chunksOf_join {α : Type} (k : Nat) (hk : 1 ≤ k) (bs : List α) :
    (chunksOf k bs).flatten = bs :=
  chunksOfAux_join k hk bs.length bs le_rfl

theorem processMsgs_append (now : String) (ws : Nat) :
    ∀ (l1 l2 : List ClientMsg) (s : ServerState),
      processMsgs now ws (l1 ++ l2) s =
        match processMsgs now ws l1 s with
        | Except.error e => Except.error e
        | Except.ok s' => processMsgs now ws l2 s' := by
  intro l1
  induction l1 with
  | nil => intro l2 s; rfl
  | cons m rest ih =>
    intro l2 s
    show processMsgs now ws (m :: (rest ++ l2)) s = _
    cases h : processMsg now ws m s with
    | error e => simp [processMsgs, h]
    | ok s' => simp [processMsgs, h, ih]

theorem appendFileA_lookup (fs : List (String × List Byte)) (p : String)
    (bts : List Byte) :
    lookupA (appendFileA fs p bts) p = some ((lookupA fs p).getD [] ++ bts) :=
  lookupA_insertA_self p _ fs

theorem handle_file_complete_files (now did : String) (ts : Option Nat)
    (s : ServerState) :
    (handle_file_complete now did ts s).files = s.files := by
  unfold handle_file_complete
  cases lookupA s.downloads did <;> rfl

theorem handle_file_complete_lookup (now did : String) (ts : Option Nat)
    (s : ServerState) (r : DownloadRecord)
    (hr : lookupA s.downloads did = some r) :
    lookupA (handle_file_complete now did ts s).downloads did =
      some ({ r with status := Status.completed, completed_at := some now,
                     total_size := ts }) := by
  unfold handle_file_complete
  rw [hr]
  exact lookupA_insertA_self did _ s.downloads

theorem run_sendChunks (now : String) (ws : Nat) (did : String) (tc : Nat) :
    ∀ (chks : List (List Byte)) (i : Nat) (s : ServerState) (r : DownloadRecord),
      lookupA s.downloads did = some r →
      ∃ s' r',
        processMsgs now ws (sendChunksLoop did tc i chks) s = Except.ok s'
        ∧ lookupA s'.downloads did = some r'
        ∧ r'.file_path = r.file_path
        ∧ r'.status = r.status
        ∧ (lookupA s'.files r.file_path).getD [] =
            (lookupA s.files r.file_path).getD [] ++ chks.flatten := by
  intro chks
  induction chks with
  | nil =>
    intro i s r hr
    exact ⟨s, r, rfl, hr, rfl, rfl, by simp⟩
  | cons c rest ih =>
    intro i s r hr
    have hstep : processMsg now ws (ClientMsg.fileChunk did (i + 1) tc (latin1Decode c)) s
        = Except.ok { s with
            files := appendFileA s.files r.file_path c,
            downloads := insertA did ({ r with chunks_received := i + 1 }) s.downloads } := by
      simp [processMsg, handle_file_chunk, hr, latin1_roundtrip]
    obtain ⟨s', r', hrun, hlook, hfp, hst, hfiles⟩ :=
      ih (i + 1)
        { s with files := appendFileA s.files r.file_path c,
                 downloads := insertA did ({ r with chunks_received := i + 1 }) s.downloads }
        ({ r with chunks_received := i + 1 })
        (lookupA_insertA_self did _ s.downloads)
    refine ⟨s', r', ?_, hlook, hfp, hst, ?_⟩
    · show processMsgs now ws
        (ClientMsg.fileChunk did (i + 1) tc (latin1Decode c)
          :: sendChunksLoop did tc (i + 1) rest) s = Except.ok s'
      simp only [processMsgs, hstep]
      exact hrun
    · rw [hfiles]
      show (lookupA (appendFileA s.files r.file_path c) r.file_path).getD [] ++ rest.flatten = _
      rw [appendFileA_lookup]
      simp [List.append_assoc]

theorem sendChunksLoop_payload_sum (did : String) (tc : Nat) :
    ∀ (chks : List (List Byte)) (i : Nat),
      ((sendChunksLoop did tc i chks).map chunkPayloadLen).sum = chks.flatten.length := by
  intro chks
  induction chks with
  | nil => intro i; rfl
  | cons c rest ih =>
    intro i
    simp [sendChunksLoop, chunkPayloadLen, ih, latin1Decode]

/-- C7: a `file_chunk` whose `download_id` is not a key of the download
tracker raises no exception, writes no bytes, and leaves the whole server
state (tracker included) unchanged. -/
theorem c7_unknown_chunk_noop (did : String) (n : Nat) (dat : List Nat)
    (s : ServerState) (h : lookupA s.downloads did = none) :
    handle_file_chunk did n dat s = Except.ok s := by
  unfold handle_file_chunk
  rw [h]

/-- C7 witness: a chunk for `"ghost"` against a tracker that only knows
`"d1"` is accepted as a no-op. -/
theorem c7_unknown_chunk_noop_witness :
    lookupA (mkState [] [("d1", baseRec)] []).downloads "ghost" = none
    ∧ handle_file_chunk "ghost" 1 [65] (mkState [] [("d1", baseRec)] [])
        = Except.ok (mkState [] [("d1", baseRec)] []) :=
  ⟨rfl, c7_unknown_chunk_noop "ghost" 1 [65] (mkState [] [("d1", baseRec)] []) rfl⟩

/-- C8: dispatching a download to a named client identity absent from the
session registry yields `ClientNotConnected` and leaves the state (hence
the download tracker) unchanged: no record is created. -/
theorem c8_dispatch_unknown_client (cid fp now nid : String) (s : ServerState)
    (hcid : cid ≠ "") (h : lookupA s.connected_clients cid = none) :
    trigger_download (some cid) fp now nid s
      = (DispatchResult.clientNotConnected cid, s) := by
  simp only [trigger_download]
  rw [if_neg hcid, h]
  rfl

/-- C8 witness: dispatch to `"site-9"` with an empty registry fails with
`ClientNotConnected` and creates nothing. -/
theorem c8_dispatch_unknown_client_witness :
    ("site-9" ≠ "" ∧ lookupA (mkState [] [] []).connected_clients "site-9" = none)
    ∧ trigger_download (some "site-9") "/tmp/a.txt" "t1" "id1" (mkState [] [] [])
        = (DispatchResult.clientNotConnected "site-9", mkState [] [] []) :=
  ⟨⟨by decide, rfl⟩,
    c8_dispatch_unknown_client "site-9" "/tmp/a.txt" "t1" "id1" (mkState [] [] [])
      (by decide) rfl⟩

/-- C2 counterexample: a record already in the terminal `failed` state is
overwritten to `completed` by a late `file_complete` for the same id, so
the claimed terminal-state immutability is false. -/
theorem c2_failed_then_complete_counterexample :
    (lookupA (handle_file_complete "t1" "d1" (some 10)
        (mkState [] [("d1", { baseRec with status := Status.failed })] [])).downloads
        "d1").map (·.status) = some Status.completed
    ∧ Status.completed ≠ Status.failed :=
  ⟨rfl, by decide⟩

/-- C2 (amended): `handle_file_complete` for a known `download_id`
unconditionally sets the record's status to `completed`, with no check of
the current status; in particular a terminal `failed` record is overwritten
and terminal states are not immutable. -/
theorem c2_amended_file_complete_overwrites (now did : String)
    (ts : Option Nat) (s : ServerState) (r : DownloadRecord)
    (hr : lookupA s.downloads did = some r) :
    (lookupA (handle_file_complete now did ts s).downloads did).map (·.status)
      = some Status.completed := by
  rw [handle_file_complete_lookup now did ts s r hr]
  rfl

/-- C2 witness: the amended overwrite law applied to a concrete failed
record. -/
theorem c2_amended_witness :
    lookupA (mkState [] [("d1", { baseRec with status := Status.failed })] []).downloads
        "d1" = some ({ baseRec with status := Status.failed })
    ∧ (lookupA (handle_file_complete "t1" "d1" (some 10)
        (mkState [] [("d1", { baseRec with status := Status.failed })] [])).downloads
        "d1").map (·.status) = some Status.completed :=
  ⟨rfl, c2_amended_file_complete_overwrites "t1" "d1" (some 10)
    (mkState [] [("d1", { baseRec with status := Status.failed })] [])
    ({ baseRec with status := Status.failed }) rfl⟩

/-- C3 counterexample: a chunk for a record already in the terminal
`completed` state is not a no-op: its payload is appended to the
destination file and `chunks_received` changes. -/
theorem c3_terminal_chunk_counterexample :
    ((handle_file_chunk "d1" 1 [65]
        (mkState [] [("d1", { baseRec with status := Status.completed })]
          [("f1", [])])).toOption.bind
        (fun s => lookupA s.files "f1")) = some [(65 : Byte)]
    ∧ some [(65 : Byte)] ≠ some ([] : List Byte)
    ∧ ((handle_file_chunk "d1" 1 [65]
        (mkState [] [("d1", { baseRec with status := Status.completed })]
          [("f1", [])])).toOption.bind
        (fun s => (lookupA s.downloads "d1").map (·.chunks_received))) = some 1
    ∧ (1 : Nat) ≠ 0 :=
  ⟨rfl, by decide, rfl, by decide⟩

/-- C3 (amended): `handle_file_chunk` checks only membership of the
`download_id`, not the record's status: for every known id — terminal or
not — the latin1-re-encoded payload is appended to the destination file
and `chunks_received` is assigned the incoming `chunk_num`. -/
theorem c3_amended_chunk_appends_regardless_of_status (did : String)
    (n : Nat) (dat : List Nat) (bts : List Byte) (s : ServerState)
    (r : DownloadRecord) (hr : lookupA s.downloads did = some r)
    (henc : latin1EncodeBytes dat = some bts) :
    handle_file_chunk did n dat s = Except.ok
      { s with files := appendFileA s.files r.file_path bts,
               downloads := insertA did ({ r with chunks_received := n }) s.downloads } := by
  unfold handle_file_chunk
  rw [hr, henc]

/-- C3 witness: the amended append-regardless law at a concrete completed
record. -/
theorem c3_amended_witness :
    (lookupA (mkState [] [("d1", { baseRec with status := Status.completed })]
        [("f1", [])]).downloads "d1"
        = some ({ baseRec with status := Status.completed })
      ∧ latin1EncodeBytes [65] = some [(65 : Byte)])
    ∧ handle_file_chunk "d1" 1 [65]
        (mkState [] [("d1", { baseRec with status := Status.completed })] [("f1", [])])
      = Except.ok
        { mkState [] [("d1", { baseRec with status := Status.completed })] [("f1", [])] with
            files := appendFileA [("f1", [])] "f1" [(65 : Byte)],
            downloads := insertA "d1"
              ({ { baseRec with status := Status.completed } with chunks_received := 1 })
              [("d1", { baseRec with status := Status.completed })] } :=
  ⟨⟨rfl, rfl⟩,
    c3_amended_chunk_appends_regardless_of_status "d1" 1 [65] [(65 : Byte)]
      (mkState [] [("d1", { baseRec with status := Status.completed })] [("f1", [])])
      ({ baseRec with status := Status.completed }) rfl rfl⟩

/-- C4 counterexample: the registry maps `"c1"` to tunnel 2, yet the
disconnect cleanup of the orphaned tunnel 1 still deletes the entry — the
code never compares the registry's current mapping with the tunnel being
closed. -/
theorem c4_cleanup_counterexample :
    lookupA (mkState [("c1", 2)] [] []).connected_clients "c1" = some 2
    ∧ (2 : Nat) ≠ 1
    ∧ lookupA (disconnectCleanup 1 (some "c1")
        (mkState [("c1", 2)] [] [])).connected_clients "c1" = none :=
  ⟨rfl, by decide, rfl⟩

/-- C4 (amended): the disconnect cleanup removes the registry entry
whenever its `client_id` is set (non-empty) and present, for every closing
tunnel `ws` and every currently mapped tunnel `tun` — including `ws ≠ tun`,
so an orphaned tunnel's disconnect removes a newer registration's entry. -/
theorem c4_amended_cleanup_removes_any_mapping (ws tun : Nat) (cid : String)
    (s : ServerState) (hcid : cid ≠ "")
    (h : lookupA s.connected_clients cid = some tun) :
    lookupA (disconnectCleanup ws (some cid) s).connected_clients cid = none := by
  simp only [disconnectCleanup]
  rw [if_pos ⟨hcid, by rw [h]; rfl⟩]
  exact lookupA_eraseA_self cid s.connected_clients

/-- C4 witness: the amended removal law with closing tunnel 1 and current
mapping 2. -/
theorem c4_amended_witness :
    ("c1" ≠ ""
      ∧ lookupA (mkState [("c1", 2)] [] []).connected_clients "c1" = some 2)
    ∧ lookupA (disconnectCleanup 1 (some "c1")
        (mkState [("c1", 2)] [] [])).connected_clients "c1" = none :=
  ⟨⟨by decide, rfl⟩,
    c4_amended_cleanup_removes_any_mapping 1 2 "c1" (mkState [("c1", 2)] [] [])
      (by decide) rfl⟩

/-- C5 counterexample: with `chunks_received = 2`, an incoming chunk
numbered 1 sets `chunks_received` to 1, not to `max 2 1 = 2`: the field is
plainly assigned, not maximised, and is not monotone. -/
theorem c5_chunks_received_counterexample :
    ((handle_file_chunk "d1" 1 [65]
        (mkState [] [("d1", { baseRec with chunks_received := 2 })] [])).toOption.bind
        (fun s => (lookupA s.downloads "d1").map (·.chunks_received))) = some 1
    ∧ max 2 1 ≠ 1 :=
  ⟨rfl, by decide⟩

/-- C5 (amended): for every `file_chunk` with a known `download_id` whose
payload re-encodes, `chunks_received` becomes exactly the incoming
`chunk_num` (last-writer-wins assignment, server.py line 124), whatever its
previous value. -/
theorem c5_amended_chunks_received_assigned (did : String) (n : Nat)
    (dat : List Nat) (bts : List Byte) (s : ServerState) (r : DownloadRecord)
    (hr : lookupA s.downloads did = some r)
    (henc : latin1EncodeBytes dat = some bts) :
    ∃ s', handle_file_chunk did n dat s = Except.ok s'
      ∧ (lookupA s'.downloads did).map (·.chunks_received) = some n := by
  have heq : handle_file_chunk did n dat s = Except.ok
      { s with files := appendFileA s.files r.file_path bts,
               downloads := insertA did ({ r with chunks_received := n }) s.downloads } := by
    unfold handle_file_chunk
    rw [hr, henc]
  refine ⟨_, heq, ?_⟩
  show (lookupA (insertA did ({ r with chunks_received := n }) s.downloads) did).map
      (·.chunks_received) = some n
  rw [lookupA_insertA_self did _ s.downloads]
  rfl

/-- C5 witness: the amended assignment law at a record that already saw
chunk 2. -/
theorem c5_amended_witness :
    (lookupA (mkState [] [("d1", { baseRec with chunks_received := 2 })] []).downloads
        "d1" = some ({ baseRec with chunks_received := 2 })
      ∧ latin1EncodeBytes [65] = some [(65 : Byte)])
    ∧ ∃ s', handle_file_chunk "d1" 1 [65]
          (mkState [] [("d1", { baseRec with chunks_received := 2 })] [])
        = Except.ok s'
      ∧ (lookupA s'.downloads "d1").map (·.chunks_received) = some 1 :=
  ⟨⟨rfl, rfl⟩,
    c5_amended_chunks_received_assigned "d1" 1 [65] [(65 : Byte)]
      (mkState [] [("d1", { baseRec with chunks_received := 2 })] [])
      ({ baseRec with chunks_received := 2 }) rfl rfl⟩

/-- C1: each chunk payload survives the client-side latin1 decode and the
server-side latin1 re-encode exactly, so running every message of
`send_file` through the server's handlers appends exactly the original
bytes: the destination file of the tracked record ends up byte-identical
to the source file, for every byte sequence and every chunk size ≥ 1. -/
theorem c1_roundtrip_reassembles_file (now : String) (ws : Nat)
    (did : String) (k : Nat) (bs : List Byte) (s : ServerState)
    (r : DownloadRecord) (hk : 1 ≤ k)
    (hr : lookupA s.downloads did = some r)
    (hf : lookupA s.files r.file_path = none) :
    ∃ s', processMsgs now ws (sendFileMsgs did k bs) s = Except.ok s'
      ∧ (lookupA s'.files r.file_path).getD [] = bs := by
  obtain ⟨s1, r1, hrun, hlook, hfp, hst, hfiles⟩ :=
    run_sendChunks now ws did (totalChunks bs.length k) (chunksOf k bs) 0 s r hr
  refine ⟨handle_file_complete now did (some bs.length) s1, ?_, ?_⟩
  · simp only [sendFileMsgs, sendFileChunks]
    rw [processMsgs_append, hrun]
    rfl
  · rw [handle_file_complete_files, hfiles, hf]
    simp [chunksOf_join k hk bs]

/-- C1 witness: a 5-byte file containing byte values 0, 1, 255, 65 and 10,
sent in chunks of 2, is reassembled byte-identically at `"f1"`. -/
theorem c1_roundtrip_witness :
    (1 ≤ 2
      ∧ lookupA (mkState [] [("d1", baseRec)] []).downloads "d1" = some baseRec
      ∧ lookupA (mkState [] [("d1", baseRec)] []).files baseRec.file_path = none)
    ∧ ∃ s', processMsgs "t1" 0
          (sendFileMsgs "d1" 2 ([0, 1, 255, 65, 10] : List Byte))
          (mkState [] [("d1", baseRec)] []) = Except.ok s'
        ∧ (lookupA s'.files baseRec.file_path).getD []
            = ([0, 1, 255, 65, 10] : List Byte) :=
  ⟨⟨by decide, rfl, rfl⟩,
    c1_roundtrip_reassembles_file "t1" 0 "d1" 2 ([0, 1, 255, 65, 10] : List Byte)
      (mkState [] [("d1", baseRec)] []) baseRec (by decide) rfl rfl⟩

/-- C6: after the whole `send_file` sequence for a known record in the
`downloading` state, the record's status is `completed` and its
`total_size` equals the sum of the payload lengths of every `file_chunk`
the client sent. -/
theorem c6_complete_sets_status_and_total_size (now : String) (ws : Nat)
    (did : String) (k : Nat) (bs : List Byte) (s : ServerState)
    (r : DownloadRecord) (hk : 1 ≤ k)
    (hr : lookupA s.downloads did = some r)
    (hst : r.status = Status.downloading) :
    ∃ s', processMsgs now ws (sendFileMsgs did k bs) s = Except.ok s'
      ∧ (lookupA s'.downloads did).map (·.status) = some Status.completed
      ∧ (lookupA s'.downloads did).map (·.total_size)
          = some (some (((sendFileChunks did k bs).map chunkPayloadLen).sum)) := by
  obtain ⟨s1, r1, hrun, hlook, hfp, hst1, hfiles⟩ :=
    run_sendChunks now ws did (totalChunks bs.length k) (chunksOf k bs) 0 s r hr
  have hsum : ((sendFileChunks did k bs).map chunkPayloadLen).sum = bs.length := by
    rw [sendFileChunks, sendChunksLoop_payload_sum, chunksOf_join k hk bs]
  refine ⟨handle_file_complete now did (some bs.length) s1, ?_, ?_, ?_⟩
  · simp only [sendFileMsgs, sendFileChunks]
    rw [processMsgs_append, hrun]
    rfl
  · rw [handle_file_complete_lookup now did (some bs.length) s1 r1 hlook]
    rfl
  · rw [handle_file_complete_lookup now did (some bs.length) s1 r1 hlook, hsum]
    rfl

/-- C6 witness: the status-and-size law at the concrete 5-byte file of the
C1 witness, starting from a `downloading` record. -/
theorem c6_complete_witness :
    (1 ≤ 2
      ∧ lookupA (mkState [] [("d1", baseRec)] []).downloads "d1" = some baseRec
      ∧ baseRec.status = Status.downloading)
    ∧ ∃ s', processMsgs "t1" 0
          (sendFileMsgs "d1" 2 ([0, 1, 255, 65, 10] : List Byte))
          (mkState [] [("d1", baseRec)] []) = Except.ok s'
        ∧ (lookupA s'.downloads "d1").map (·.status) = some Status.completed
        ∧ (lookupA s'.downloads "d1").map (·.total_size)
            = some (some (((sendFileChunks "d1" 2 ([0, 1, 255, 65, 10] : List Byte)).map
                chunkPayloadLen).sum)) :=
  ⟨⟨by decide, rfl, rfl⟩,
    c6_complete_sets_status_and_total_size "t1" 0 "d1" 2
      ([0, 1, 255, 65, 10] : List Byte) (mkState [] [("d1", baseRec)] []) baseRec
      (by decide) rfl rfl⟩

/-- C9: the client's `total_chunks` is exactly the ceiling division
`ceil(file_size / chunk_size)` (it equals Mathlib's `⌈/⌉` and is the least
`m` with `file_size ≤ chunk_size * m`); a zero-byte file gives
`total_chunks = 0`, no `file_chunk` message, and an immediate
`file_complete`. -/
theorem c9_total_chunks_is_ceil (did : String) (n k : Nat) (hk : 1 ≤ k) :
    totalChunks n k = n ⌈/⌉ k
    ∧ n ≤ k * totalChunks n k
    ∧ (∀ m : Nat, n ≤ k * m → totalChunks n k ≤ m)
    ∧ totalChunks 0 k = 0
    ∧ sendFileChunks did k [] = []
    ∧ sendFileMsgs did k [] = [ClientMsg.fileComplete did 0 0] := by
  have hk0 : 0 < k := hk
  refine ⟨rfl, ?_, ?_, ?_, rfl, rfl⟩
  · exact (ceilDiv_le_iff_le_mul hk0).1 le_rfl
  · intro m hm
    exact (ceilDiv_le_iff_le_mul hk0).2 hm
  · show (0 + k - 1) / k = 0
    exact Nat.div_eq_of_lt (by omega)

/-- C9 witness: the ceiling law at `file_size = 5`, `chunk_size = 2`. -/
theorem c9_total_chunks_witness :
    1 ≤ 2
    ∧ (totalChunks 5 2 = 5 ⌈/⌉ 2
      ∧ 5 ≤ 2 * totalChunks 5 2
      ∧ (∀ m : Nat, 5 ≤ 2 * m → totalChunks 5 2 ≤ m)
      ∧ totalChunks 0 2 = 0
      ∧ sendFileChunks "d1" 2 [] = []
      ∧ sendFileMsgs "d1" 2 [] = [ClientMsg.fileComplete "d1" 0 0]) :=
  ⟨by decide, c9_total_chunks_is_ceil "d1" 5 2 (by decide)⟩

/-- C10: the record created by a successful dispatch has a destination
path that is `download_dir` joined with
`client_id ++ "_" ++ timestamp ++ "_file_to_download.txt"`, built only
from the client id and the UTC timestamp: the requested `remote_path`
(stored in `remote_path`) never influences it, so two dispatches with
equal client and timestamp collide on the same destination file. -/
theorem c10_destination_path_ignores_remote (cid fp now nid : String)
    (tun : Nat) (s : ServerState) (hcid : cid ≠ "")
    (h : lookupA s.connected_clients cid = some tun) :
    ∃ r, lookupA (trigger_download (some cid) fp now nid s).2.downloads nid = some r
      ∧ r.file_path = localPath s.download_dir cid now
      ∧ r.remote_path = fp := by
  simp only [trigger_download]
  rw [if_neg hcid, if_pos (by rw [h]; rfl)]
  exact ⟨_, lookupA_insertA_self nid _ s.downloads, rfl, rfl⟩

/-- C10 witness: dispatching two different remote paths for `"c1"` at the
same timestamp yields the same destination path. -/
theorem c10_destination_path_witness :
    ("c1" ≠ ""
      ∧ lookupA (mkState [("c1", 7)] [] []).connected_clients "c1" = some 7)
    ∧ ∃ r, lookupA (trigger_download (some "c1") "/data/report.csv" "20251012_120000"
          "id9" (mkState [("c1", 7)] [] [])).2.downloads "id9" = some r
        ∧ r.file_path = localPath (mkState [("c1", 7)] [] []).download_dir "c1" "20251012_120000"
        ∧ r.remote_path = "/data/report.csv" :=
  ⟨⟨by decide, rfl⟩,
    c10_destination_path_ignores_remote "c1" "/data/report.csv" "20251012_120000"
      "id9" 7 (mkState [("c1", 7)] [] []) (by decide) rfl⟩
